import Mathlib

/-!
Verification of the counter/numbering resolution core
(`crates/typst-library/src/meta/counter.rs`).

The Rust code is shallowly embedded: `usize` values are modelled as `Nat`
with explicit saturation/wrapping where the source uses `saturating_add`,
`saturating_sub` or plain (wrapping in release mode) subtraction; fallible
operations (`SourceResult`) return `Except Nat _`, the `Nat` standing for
the source span attached to the error.  The document-query collaborator
("introspector") is not part of the given source; it is modelled from the
spec's collaborator contract (see `Doc`, `queryBefore`).
-/

/-- Largest `usize` value (64-bit target). -/
def USIZE_MAX : Nat := 2 ^ 64 - 1

/-- `usize::saturating_add` on the `Nat` model. -/
def satAdd (a b : Nat) : Nat := min (a + b) USIZE_MAX

/-- `usize::saturating_sub`: on `Nat`, truncated subtraction is already
saturating. -/
def satSub (a b : Nat) : Nat := a - b

/-- Plain `usize` subtraction `a - b` as compiled in release mode:
wrapping modulo `2 ^ 64`. -/
def wrapSub (a b : Nat) : Nat := (((a : Int) - (b : Int)) % (2 ^ 64 : Int)).toNat

/-- The fragment of the scripting language's `Value` type relevant to
counters: integers, arrays, and everything else. -/
inductive Value where
  | int : Int → Value
  | array : List Value → Value
  | other : Value

/-- `Value::cast::<usize>()`: succeeds exactly on integers representable
as `usize`. -/
def castUsize : Value → Option Nat
  | Value.int n => if 0 ≤ n ∧ n ≤ (USIZE_MAX : Int) then some n.toNat else none
  | Value.array _ => none
  | Value.other => none

/-- `CounterState`: an ordered sequence of per-level counts
(`SmallVec<[usize; 3]>` in the source). -/
structure CounterState where
  vals : List Nat
deriving DecidableEq, Repr

/-- The `cast!` rules for `CounterState`: a single `usize` becomes a
one-element state, an array casts element-wise to `usize`s. -/
def castCounterState : Value → Option CounterState
  | Value.int n => (castUsize (Value.int n)).map (fun m => CounterState.mk [m])
  | Value.array vs => (vs.mapM castUsize).map CounterState.mk
  | Value.other => none

/-- A scripting-language function together with its source span.  The
call itself is modelled as total; what matters to the counter code is the
value it returns, which must cast to a `CounterState`. -/
structure Func where
  fn : List Nat → Value
  span : Nat

/-- `CounterUpdate`: the three ways to transform a counter state.  The
level of `step` is `NonZeroUsize` in the source; here a `Nat` constrained
to be positive where it matters. -/
inductive CounterUpdate where
  | set : CounterState → CounterUpdate
  | step : Nat → CounterUpdate
  | func : Func → CounterUpdate

/-- `CounterKey`: the page counter, a selector-keyed counter (the
selector itself is opaque to this file and modelled as an id), or a named
counter. -/
inductive CounterKey where
  | page : CounterKey
  | selector : Nat → CounterKey
  | str : String → CounterKey
deriving DecidableEq, Repr

/-- `CounterState::step(level, by)`: if the state is at least `level`
long, saturating-add `by` to the `level`-th entry and truncate to
`level` entries; then pad with `1`s up to length `level`. -/
def CounterState.step (s : CounterState) (level amount : Nat) : CounterState :=
  let v :=
    if level ≤ s.vals.length then
      (s.vals.set (level - 1) (satAdd (s.vals.getD (level - 1) 0) amount)).take level
    else
      s.vals
  CounterState.mk (v ++ List.replicate (level - v.length) 1)

/-- `CounterState::update`: `Set` replaces the state, `Step` steps by
one, `Func` calls the function on the current entries and casts the
result, failing with the function's span when the cast fails. -/
def CounterState.update (s : CounterState) (u : CounterUpdate) : Except Nat CounterState :=
  match u with
  | CounterUpdate.set t => Except.ok t
  | CounterUpdate.step level => Except.ok (s.step level 1)
  | CounterUpdate.func f =>
    match castCounterState (f.fn s.vals) with
    | some t => Except.ok t
    | none => Except.error f.span

/-- The in-place semantics of the source's `update(&mut self, ..) ->
SourceResult<()>`: on success `self` becomes the new state, on an early
`?` return `self` is untouched and the error (its span) is propagated. -/
def CounterState.updateMut (s : CounterState) (u : CounterUpdate) :
    CounterState × Option Nat :=
  match s.update u with
  | Except.ok t => (t, none)
  | Except.error sp => (s, some sp)

/-- `CounterState::first`: the top-level count, defaulting to `1` on an
empty state. -/
def CounterState.first (s : CounterState) : Nat := s.vals.headD 1

/-- A located document element, as the introspector exposes it to the
counter engine: its location (document order is the order on locations),
whether it is an `UpdateElem` (and then its key and payload), whether it
implements the `Count` capability (and then that capability's optional
update), and which opaque selectors it matches. -/
structure Elem where
  loc : Nat
  asUpdate : Option (CounterKey × CounterUpdate)
  withCount : Option (Option CounterUpdate)
  sels : List Nat

/-- Modelled from the spec: the document-query collaborator
("introspector").  It exposes the located elements in document order, the
physical page of every location, and the total page count. -/
structure Doc where
  elems : List Elem
  pageOf : Nat → Nat
  npages : Nat

/-- `Counter::selector()` as a membership test: an element matches if it
is an `UpdateElem` whose key equals this counter's key, or (for
selector-keyed counters only) if it matches the key's selector. -/
def keyMatches (k : CounterKey) (e : Elem) : Bool :=
  (match e.asUpdate with
   | some (k2, _) => decide (k2 = k)
   | none => false)
  ||
  (match k with
   | CounterKey.selector sel => e.sels.contains sel
   | CounterKey.page => false
   | CounterKey.str _ => false)

/-- `Counter::is_page()`. -/
def isPage (k : CounterKey) : Bool := decide (k = CounterKey.page)

/-- The seed state of `sequence_impl`: pages start at one, everything
else at zero. -/
def initState (k : CounterKey) : CounterState :=
  match k with
  | CounterKey.page => CounterState.mk [1]
  | CounterKey.selector _ => CounterState.mk [0]
  | CounterKey.str _ => CounterState.mk [0]

/-- The update an element contributes in the builder loop: an explicit
`UpdateElem` uses its payload; otherwise a `Count`-capable element uses
its capability's (optional) update; otherwise the default `Step(1)`. -/
def elemUpdate (e : Elem) : Option CounterUpdate :=
  match e.asUpdate with
  | some (_, u) => some u
  | none =>
    match e.withCount with
    | some cu => cu
    | none => some (CounterUpdate.step 1)

/-- The builder loop's accumulator: running state, current page, stops
recorded so far. -/
structure BuildAcc where
  state : CounterState
  page : Nat
  stops : List (CounterState × Nat)

/-- The page-tracking prelude of one builder iteration: for the page
counter, look up the element's page, and if the (wrapping) delta since
the previous page is positive, step level 1 by it before the element's
own update; other counters leave state and page untouched. -/
def pagePre (k : CounterKey) (doc : Doc) (acc : BuildAcc) (e : Elem) :
    CounterState × Nat :=
  if isPage k then
    let p := doc.pageOf e.loc
    let delta := wrapSub p acc.page
    (if 0 < delta then acc.state.step 1 delta else acc.state, p)
  else
    (acc.state, acc.page)

/-- One iteration of `sequence_impl`'s loop: page prelude, then apply the
element's update (if any, propagating its error as `?` does), then record
a stop. -/
def visitElem (k : CounterKey) (doc : Doc) (acc : BuildAcc) (e : Elem) :
    Except Nat BuildAcc :=
  match (match elemUpdate e with
         | some u => (pagePre k doc acc e).1.update u
         | none => Except.ok (pagePre k doc acc e).1) with
  | Except.ok state =>
    Except.ok (BuildAcc.mk state (pagePre k doc acc e).2
      (acc.stops ++ [(state, (pagePre k doc acc e).2)]))
  | Except.error sp => Except.error sp

/-- `Counter::sequence_impl`: seed with the initial state on page 1,
record it as stop 0, then fold the builder loop over the selector's
matches in document order. -/
def sequence_impl (k : CounterKey) (doc : Doc) :
    Except Nat (List (CounterState × Nat)) :=
  match (doc.elems.filter (keyMatches k)).foldlM (visitElem k doc)
      (BuildAcc.mk (initState k) 1 [(initState k, 1)]) with
  | Except.ok acc => Except.ok acc.stops
  | Except.error sp => Except.error sp

/-- Modelled from the spec: the introspector's
`query(selector.before(location, inclusive))` — the matching elements at
locations strictly before `L`, plus, when `inclusive`, the one located
exactly at `L`. -/
def queryBefore (doc : Doc) (k : CounterKey) (L : Nat) (inclusive : Bool) :
    List Elem :=
  (doc.elems.filter (keyMatches k)).filter
    (fun e => e.loc < L || (inclusive && e.loc == L))

/-- The offset `Counter::at`/`both` compute: the length of the inclusive
before-query at the given location. -/
def offsetOf (doc : Doc) (k : CounterKey) (L : Nat) : Nat :=
  (queryBefore doc k L true).length

/-- `Counter::at` (named `atLoc` because `at` is a Lean keyword): look up
the stop at the computed offset and, for the page counter, step level 1
by the saturating page difference.  The source's unchecked
`sequence[offset]` indexing is modelled with `getD`; the safety claim
proves the default is never consulted. -/
def Counter.atLoc (k : CounterKey) (doc : Doc) (L : Nat) : Except Nat CounterState :=
  match sequence_impl k doc with
  | Except.error sp => Except.error sp
  | Except.ok stops =>
    let stop := stops.getD (offsetOf doc k L) (CounterState.mk [], 1)
    if isPage k then
      Except.ok (stop.1.step 1 (satSub (doc.pageOf L) stop.2))
    else
      Except.ok stop.1

/-- `Counter::final_`: like `atLoc` but against the last stop and the
total page count; the location argument is ignored (`_: Location` in the
source).  The source's `last().unwrap()` is modelled with `getLastD`. -/
def Counter.final_ (k : CounterKey) (doc : Doc) (_loc : Nat) : Except Nat CounterState :=
  match sequence_impl k doc with
  | Except.error sp => Except.error sp
  | Except.ok stops =>
    let stop := stops.getLastD (CounterState.mk [], 1)
    if isPage k then
      Except.ok (stop.1.step 1 (satSub doc.npages stop.2))
    else
      Except.ok stop.1

/-- `Counter::both`: the two-element state of the top-level counts of the
drift-corrected `at` stop and final stop. -/
def Counter.both (k : CounterKey) (doc : Doc) (L : Nat) : Except Nat CounterState :=
  match sequence_impl k doc with
  | Except.error sp => Except.error sp
  | Except.ok stops =>
    let atStop := stops.getD (offsetOf doc k L) (CounterState.mk [], 1)
    let finStop := stops.getLastD (CounterState.mk [], 1)
    let atState :=
      if isPage k then atStop.1.step 1 (satSub (doc.pageOf L) atStop.2) else atStop.1
    let finState :=
      if isPage k then finStop.1.step 1 (satSub doc.npages finStop.2) else finStop.1
    Except.ok (CounterState.mk [atState.first, finState.first])

/-- Modelled from the spec's words for `at` ("offset = number of
Sequence-selected events strictly before location"): the variant of
`Counter.atLoc` that uses a strict (non-inclusive) before-count, to be
compared against the source's inclusive one. -/
def atStrictSpec (k : CounterKey) (doc : Doc) (L : Nat) : Except Nat CounterState :=
  match sequence_impl k doc with
  | Except.error sp => Except.error sp
  | Except.ok stops =>
    let stop := stops.getD (queryBefore doc k L false).length (CounterState.mk [], 1)
    if isPage k then
      Except.ok (stop.1.step 1 (satSub (doc.pageOf L) stop.2))
    else
      Except.ok stop.1

/-! ### Helper lemmas -/

theorem exceptBind_ok {α β : Type} (a : α) (f : α → Except Nat β) :
    (Except.ok a >>= f : Except Nat β) = f a := rfl

theorem exceptBind_error {α β : Type} (sp : Nat) (f : α → Except Nat β) :
    (Except.error sp >>= f : Except Nat β) = Except.error sp := rfl

theorem take_set_succ :
    ∀ (l : List Nat) (i : Nat) (x : Nat), i < l.length →
      (l.set i x).take (i + 1) = l.take i ++ [x]
  | [], i, x, h => by simp at h
  | _ :: _, 0, x, _ => by simp
  | a :: l, i + 1, x, h => by
    have ih := take_set_succ l i x (by simpa using h)
    simp [List.set, ih]

/-! ### Claim C1 -/

/-- C1: for every state `s` and level `k ≥ 1`, `Step(k)` (i.e.
`step k 1`) increments the `k`-th entry saturatingly and drops all deeper
entries when `s` is long enough, and otherwise extends `s` with fresh
`1`s up to length `k`; entries shallower than `k` are never changed. -/
theorem step_truncation_law (s : List Nat) (k : Nat) (hk : 1 ≤ k) :
    ((CounterState.mk s).step k 1).vals =
      if k ≤ s.length then
        s.take (k - 1) ++ [satAdd (s.getD (k - 1) 0) 1]
      else
        s ++ List.replicate (k - s.length) 1 := by
  unfold CounterState.step
  by_cases h : k ≤ s.length
  · have hk1 : k - 1 < s.length := by omega
    have hkk : k - 1 + 1 = k := by omega
    have htake :
        ((s.set (k - 1) (satAdd (s.getD (k - 1) 0) 1)).take k) =
          s.take (k - 1) ++ [satAdd (s.getD (k - 1) 0) 1] := by
      rw [← hkk]
      exact take_set_succ s (k - 1) _ hk1
    have hlen :
        ((s.set (k - 1) (satAdd (s.getD (k - 1) 0) 1)).take k).length = k := by
      simp [List.length_take, List.length_set, Nat.min_eq_left h]
    simp only [h, if_true]
    rw [htake] at hlen ⊢
    rw [hlen]
    simp
  · simp [h]

/-- Witness for C1 at the spec's own example: stepping level 2 on `[3]`
yields `[3, 1]`. -/
theorem step_truncation_law_witness :
    ((CounterState.mk [3]).step 2 1).vals = [3, 1] := by
  rw [step_truncation_law [3] 2 (by decide)]
  decide

/-! ### Claim C9 -/

/-- C9: a `Func(f)` update whose result fails to cast to a counter state
errors with the function's span and leaves the state unchanged (the
in-place semantics return the original state next to the error); a
successful cast replaces the state with the cast result. -/
theorem func_update_type_error (s : CounterState) (f : Func) :
    (castCounterState (f.fn s.vals) = none →
      s.update (CounterUpdate.func f) = Except.error f.span ∧
      s.updateMut (CounterUpdate.func f) = (s, some f.span)) ∧
    (∀ t, castCounterState (f.fn s.vals) = some t →
      s.update (CounterUpdate.func f) = Except.ok t ∧
      s.updateMut (CounterUpdate.func f) = (t, none)) := by
  constructor
  · intro hnone
    have hupd : s.update (CounterUpdate.func f) = Except.error f.span := by
      simp [CounterState.update, hnone]
    exact ⟨hupd, by simp [CounterState.updateMut, hupd]⟩
  · intro t hsome
    have hupd : s.update (CounterUpdate.func f) = Except.ok t := by
      simp [CounterState.update, hsome]
    exact ⟨hupd, by simp [CounterState.updateMut, hupd]⟩

/-- A function value that returns something uncastable (used to witness
C9). -/
def badFunc : Func := Func.mk (fun _ => Value.other) 7

/-- Witness for C9: updating `[0]` with `badFunc` errors with span 7 and
leaves the state unchanged. -/
theorem func_update_type_error_witness :
    CounterState.update (CounterState.mk [0]) (CounterUpdate.func badFunc) =
      Except.error 7 ∧
    CounterState.updateMut (CounterState.mk [0]) (CounterUpdate.func badFunc) =
      (CounterState.mk [0], some 7) :=
  (func_update_type_error (CounterState.mk [0]) badFunc).1 rfl

/-! ### Builder fold invariants -/

theorem visitElem_stops (k : CounterKey) (doc : Doc) (acc res : BuildAcc) (e : Elem)
    (h : visitElem k doc acc e = Except.ok res) :
    res.stops = acc.stops ++ [(res.state, res.page)] := by
  unfold visitElem at h
  split at h
  · cases h
    rfl
  · exact Except.noConfusion h

theorem foldl_visit_stops (k : CounterKey) (doc : Doc) :
    ∀ (l : List Elem) (acc res : BuildAcc),
      l.foldlM (visitElem k doc) acc = Except.ok res →
      ∃ t : List (CounterState × Nat),
        res.stops = acc.stops ++ t ∧ t.length = l.length
  | [], acc, res, h => by
    refine ⟨[], ?_, rfl⟩
    rw [List.foldlM_nil] at h
    cases Except.ok.inj h
    simp
  | e :: l, acc, res, h => by
    rw [List.foldlM_cons] at h
    cases hv : visitElem k doc acc e with
    | error sp =>
      rw [hv, exceptBind_error] at h
      exact Except.noConfusion h
    | ok acc1 =>
      rw [hv, exceptBind_ok] at h
      obtain ⟨t, ht, hlen⟩ := foldl_visit_stops k doc l acc1 res h
      refine ⟨(acc1.state, acc1.page) :: t, ?_, by simp [hlen]⟩
      rw [ht, visitElem_stops k doc acc acc1 e hv]
      simp

/-- Whenever the build succeeds, the stop list is the seed stop followed
by one stop per matched element. -/
theorem sequence_impl_shape (k : CounterKey) (doc : Doc)
    (stops : List (CounterState × Nat))
    (hok : sequence_impl k doc = Except.ok stops) :
    ∃ t : List (CounterState × Nat),
      stops = (initState k, 1) :: t ∧
      t.length = (doc.elems.filter (keyMatches k)).length := by
  unfold sequence_impl at hok
  cases hf : (doc.elems.filter (keyMatches k)).foldlM (visitElem k doc)
      (BuildAcc.mk (initState k) 1 [(initState k, 1)]) with
  | error sp =>
    rw [hf] at hok
    exact Except.noConfusion hok
  | ok acc =>
    rw [hf] at hok
    cases Except.ok.inj hok
    obtain ⟨t, ht, hlen⟩ := foldl_visit_stops k doc _ _ _ hf
    exact ⟨t, by simpa using ht, hlen⟩

/-! ### Concrete documents used by witnesses -/

/-- The key of the named counter used by the concrete witness documents. -/
def keyC : CounterKey := CounterKey.str "c"

/-- One explicit update event at location 0: set counter `c` to `[5]`. -/
def elemSet5 : Elem :=
  Elem.mk 0 (some (keyC, CounterUpdate.set (CounterState.mk [5]))) none []

/-- A concrete one-event document whose every location is on page 1. -/
def docW : Doc := Doc.mk [elemSet5] (fun _ => 1) 1

/-- The stop list `sequence_impl` builds for `keyC` on `docW`. -/
def stopsW : List (CounterState × Nat) :=
  [(CounterState.mk [0], 1), (CounterState.mk [5], 1)]

/-! ### Claim C4 -/

/-- C4: the built Sequence is seeded with `[1]`/`[0]` (page / other key)
on page 1 as stop 0 before any matching event, and contains exactly one
further stop per matching event: `n` matching events yield `n + 1`
stops. -/
theorem sequence_seed_shape (k : CounterKey) (doc : Doc)
    (stops : List (CounterState × Nat))
    (hok : sequence_impl k doc = Except.ok stops) :
    stops.length = (doc.elems.filter (keyMatches k)).length + 1 ∧
    stops.headD (CounterState.mk [], 1) = (initState k, 1) ∧
    initState k =
      (if k = CounterKey.page then CounterState.mk [1] else CounterState.mk [0]) := by
  obtain ⟨t, ht, hlen⟩ := sequence_impl_shape k doc stops hok
  subst ht
  refine ⟨by simp [hlen], by simp, ?_⟩
  cases k <;> simp [initState]

/-- Witness for C4 on the concrete document `docW`. -/
theorem sequence_seed_shape_witness :
    stopsW.length = (docW.elems.filter (keyMatches keyC)).length + 1 ∧
    stopsW.headD (CounterState.mk [], 1) = (initState keyC, 1) ∧
    initState keyC =
      (if keyC = CounterKey.page then CounterState.mk [1] else CounterState.mk [0]) :=
  sequence_seed_shape keyC docW stopsW rfl

/-! ### Claim C10 -/

/-- C10: a successfully built Sequence is never empty (the seed stop is
always there, so `final`'s `last().unwrap()` cannot fail), and the offset
`at` computes is always a valid index into it, because the matching
events at-or-before a location are a sub-filter of all matching events —
both queries being answered by the same collaborator over the same
element list. -/
theorem sequence_lookup_safe (k : CounterKey) (doc : Doc) (L : Nat)
    (stops : List (CounterState × Nat))
    (hok : sequence_impl k doc = Except.ok stops) :
    stops ≠ [] ∧ offsetOf doc k L < stops.length := by
  obtain ⟨t, ht, hlen⟩ := sequence_impl_shape k doc stops hok
  subst ht
  have hle : offsetOf doc k L ≤ (doc.elems.filter (keyMatches k)).length := by
    unfold offsetOf queryBefore
    exact List.length_filter_le _ _
  refine ⟨by simp, ?_⟩
  simp only [List.length_cons]
  omega

/-- Witness for C10 on the concrete document `docW` at location 0. -/
theorem sequence_lookup_safe_witness :
    stopsW ≠ [] ∧ offsetOf docW keyC 0 < stopsW.length :=
  sequence_lookup_safe keyC docW 0 stopsW rfl

/-! ### Claim C3 -/

/-- C3: `final` ignores its location argument — any two locations give
the same result — and that result is the last stop of the built
Sequence, drift-corrected for the page counter by stepping level 1 by
the saturating difference between the document's total page count and
the last stop's recorded page. -/
theorem final_location_independent (k : CounterKey) (doc : Doc) (L1 L2 : Nat)
    (stops : List (CounterState × Nat))
    (hok : sequence_impl k doc = Except.ok stops) :
    Counter.final_ k doc L1 = Counter.final_ k doc L2 ∧
    Counter.final_ k doc L1 = Except.ok (
      if isPage k then
        (stops.getLastD (CounterState.mk [], 1)).1.step 1
          (satSub doc.npages (stops.getLastD (CounterState.mk [], 1)).2)
      else
        (stops.getLastD (CounterState.mk [], 1)).1) := by
  refine ⟨rfl, ?_⟩
  unfold Counter.final_
  rw [hok]
  by_cases hp : isPage k <;> simp [hp]

/-- Witness for C3 on the concrete document `docW`, locations 0 and 9. -/
theorem final_location_independent_witness :
    Counter.final_ keyC docW 0 = Counter.final_ keyC docW 9 ∧
    Counter.final_ keyC docW 0 = Except.ok (
      if isPage keyC then
        (stopsW.getLastD (CounterState.mk [], 1)).1.step 1
          (satSub docW.npages (stopsW.getLastD (CounterState.mk [], 1)).2)
      else
        (stopsW.getLastD (CounterState.mk [], 1)).1) :=
  final_location_independent keyC docW 0 9 stopsW rfl

/-! ### Claim C6 -/

/-- C6: `both(L)` is the 2-element state made of the top-level count
(`first`) of the `at(L)` result and the top-level count of the `final`
result — each part drift-corrected for the page counter exactly as
`at`/`final` are — and never an element-wise combination of the
multi-level states; errors propagate identically. -/
theorem both_composition (k : CounterKey) (doc : Doc) (L : Nat) :
    Counter.both k doc L =
      (Counter.atLoc k doc L).bind (fun a =>
        (Counter.final_ k doc L).map (fun f => CounterState.mk [a.first, f.first])) := by
  unfold Counter.both Counter.atLoc Counter.final_
  cases hs : sequence_impl k doc with
  | error sp => simp [Except.bind]
  | ok stops =>
    by_cases hp : isPage k <;> simp [hp, Except.bind, Except.map]

/-! ### Claim C8 -/

/-- C8: in the builder loop, an event that is neither an explicit update
instruction nor an element exposing the `Count` capability contributes
the default `Step(level 1)`, applied to the (page-adjusted) running
state and recorded as the next stop; and an explicit update instruction
takes precedence — its payload is used regardless of any capability. -/
theorem default_update_rule (k : CounterKey) (doc : Doc) (acc : BuildAcc) (e : Elem) :
    (e.asUpdate = none → e.withCount = none →
      elemUpdate e = some (CounterUpdate.step 1) ∧
      visitElem k doc acc e = Except.ok (BuildAcc.mk
        ((pagePre k doc acc e).1.step 1 1) (pagePre k doc acc e).2
        (acc.stops ++ [((pagePre k doc acc e).1.step 1 1, (pagePre k doc acc e).2)]))) ∧
    (∀ p u, e.asUpdate = some (p, u) → elemUpdate e = some u) := by
  constructor
  · intro h1 h2
    have he : elemUpdate e = some (CounterUpdate.step 1) := by
      simp [elemUpdate, h1, h2]
    exact ⟨he, by simp [visitElem, he, CounterState.update]⟩
  · intro p u hu
    simp [elemUpdate, hu]

/-- An event with neither an update payload nor the `Count` capability
(used to witness C8). -/
def plainElem : Elem := Elem.mk 3 none none [0]

/-- An accumulator state used by the C8 witness. -/
def accW : BuildAcc := BuildAcc.mk (CounterState.mk [0]) 1 []

/-- Witness for C8: visiting `plainElem` applies the default `Step(1)`. -/
theorem default_update_rule_witness :
    elemUpdate plainElem = some (CounterUpdate.step 1) ∧
    visitElem keyC docW accW plainElem = Except.ok (BuildAcc.mk
      ((pagePre keyC docW accW plainElem).1.step 1 1)
      (pagePre keyC docW accW plainElem).2
      (accW.stops ++ [((pagePre keyC docW accW plainElem).1.step 1 1,
        (pagePre keyC docW accW plainElem).2)])) :=
  (default_update_rule keyC docW accW plainElem).1 rfl rfl

/-! ### Claim C5 -/

theorem wrapSub_of_le (a b : Nat) (hba : b ≤ a) (ha : a ≤ USIZE_MAX) :
    wrapSub a b = a - b := by
  unfold wrapSub
  have h1 : ((a : Int) - b) = ((a - b : Nat) : Int) := by omega
  have h2 : ((a - b : Nat) : Int) < (2 ^ 64 : Int) := by
    have : a - b < 2 ^ 64 := by
      unfold USIZE_MAX at ha
      omega
    exact_mod_cast this
  rw [h1, Int.emod_eq_of_lt (Int.natCast_nonneg _) h2]
  simp

/-- A document whose every location sits on page 2 (used for the C5
counterexample). -/
def docDec : Doc := Doc.mk [] (fun _ => 2) 2

/-- A builder accumulator whose previously recorded page is 3, i.e. the
next visited event sits on an earlier page (used for the C5
counterexample). -/
def accDec : BuildAcc := BuildAcc.mk (CounterState.mk [1]) 3 []

/-- An event at location 0 with no payload and no capability (used for
the C5 counterexample). -/
def eDec : Elem := Elem.mk 0 none none []

/-- C5 counterexample: the claim's "when the page number did not
increase, no implicit level-1 step occurs" branch is false on the code.
On a page decrease (previous page 3, event page 2) the source's plain
subtraction wraps, the wrapped delta `2^64 - 1` is positive, and an
implicit level-1 step by it does occur, saturating the running state
`[1]` to `[USIZE_MAX]` instead of leaving it unchanged. -/
theorem page_prestep_counterexample :
    docDec.pageOf eDec.loc < accDec.page ∧
    pagePre CounterKey.page docDec accDec eDec =
      (accDec.state.step 1 USIZE_MAX, 2) ∧
    accDec.state.step 1 USIZE_MAX ≠ accDec.state := by
  refine ⟨by decide, by decide, by decide⟩

/-- C5 (amended): for the page counter, assuming the collaborator's
physical page numbers do not decrease between consecutively visited
events (`acc.page` records the previous event's page), one builder
iteration first steps level 1 by the exact page delta when the page
strictly increased — and performs no implicit step when it did not —
and only then applies the event's own update to the pre-stepped state.
Without the assumption the no-step branch fails: see
the counterexample above, where the wrapping delta of a page decrease
triggers a saturating implicit step. -/
theorem page_prestep (doc : Doc) (acc : BuildAcc) (e : Elem) (u : CounterUpdate)
    (hmono : acc.page ≤ doc.pageOf e.loc)
    (hbound : doc.pageOf e.loc ≤ USIZE_MAX)
    (hu : elemUpdate e = some u) :
    pagePre CounterKey.page doc acc e =
      (if acc.page < doc.pageOf e.loc then
         acc.state.step 1 (doc.pageOf e.loc - acc.page)
       else acc.state, doc.pageOf e.loc) ∧
    visitElem CounterKey.page doc acc e =
      ((if acc.page < doc.pageOf e.loc then
          acc.state.step 1 (doc.pageOf e.loc - acc.page)
        else acc.state).update u).map
        (fun st => BuildAcc.mk st (doc.pageOf e.loc)
          (acc.stops ++ [(st, doc.pageOf e.loc)])) := by
  have hd : wrapSub (doc.pageOf e.loc) acc.page = doc.pageOf e.loc - acc.page :=
    wrapSub_of_le _ _ hmono hbound
  have h1 : pagePre CounterKey.page doc acc e =
      (if acc.page < doc.pageOf e.loc then
         acc.state.step 1 (doc.pageOf e.loc - acc.page)
       else acc.state, doc.pageOf e.loc) := by
    simp only [pagePre, isPage, decide_True, if_true]
    rw [hd]
    by_cases hlt : acc.page < doc.pageOf e.loc
    · simp [hlt, Nat.sub_pos_of_lt hlt]
    · have h0 : doc.pageOf e.loc - acc.page = 0 := by omega
      simp [hlt, h0]
  refine ⟨h1, ?_⟩
  unfold visitElem
  rw [hu, h1]
  cases hres : ((if acc.page < doc.pageOf e.loc then
      acc.state.step 1 (doc.pageOf e.loc - acc.page)
    else acc.state).update u) <;> simp [hres, Except.map]

/-- A page-counter document for the C5 and C7 witnesses: no explicit
events, each location `l` sits on page `l + 1`, three pages in total. -/
def docP : Doc := Doc.mk [] (fun l => l + 1) 3

/-- A countable event on page 2 (location 1) for the C5 witness. -/
def pageElem : Elem := Elem.mk 1 none none []

/-- The builder accumulator before visiting `pageElem`: state `[1]`,
previous page 1, no recorded stops yet. -/
def accP : BuildAcc := BuildAcc.mk (CounterState.mk [1]) 1 []

/-- Witness for C5: visiting `pageElem` (page 2, previous page 1) first
steps level 1 by the delta 1 and then applies the default update. -/
theorem page_prestep_witness :
    pagePre CounterKey.page docP accP pageElem =
      (if accP.page < docP.pageOf pageElem.loc then
         accP.state.step 1 (docP.pageOf pageElem.loc - accP.page)
       else accP.state, docP.pageOf pageElem.loc) ∧
    visitElem CounterKey.page docP accP pageElem =
      ((if accP.page < docP.pageOf pageElem.loc then
          accP.state.step 1 (docP.pageOf pageElem.loc - accP.page)
        else accP.state).update (CounterUpdate.step 1)).map
        (fun st => BuildAcc.mk st (docP.pageOf pageElem.loc)
          (accP.stops ++ [(st, docP.pageOf pageElem.loc)])) :=
  page_prestep docP accP pageElem (CounterUpdate.step 1)
    (by decide) (by decide) rfl

/-! ### Claim C7 -/

theorem step_one_vals (s : CounterState) (d : Nat) :
    (s.step 1 d).vals =
      match s.vals with
      | [] => [1]
      | a :: _ => [satAdd a d] := by
  cases hv : s.vals with
  | nil => simp [CounterState.step, hv]
  | cons a l =>
    have h1 : 1 ≤ (a :: l).length := by simp
    simp [CounterState.step, hv, h1, List.set]

theorem first_step_one_mono (s : CounterState) (d1 d2 : Nat) (h : d1 ≤ d2) :
    (s.step 1 d1).first ≤ (s.step 1 d2).first := by
  unfold CounterState.first
  rw [step_one_vals, step_one_vals]
  cases s.vals with
  | nil => simp
  | cons a l =>
    simp only [List.headD_cons]
    unfold satAdd
    omega

theorem offsetOf_eq_of_no_between (doc : Doc) (k : CounterKey) (L1 L2 : Nat)
    (h12 : L1 ≤ L2)
    (hno : ∀ e ∈ doc.elems, keyMatches k e = true → ¬(L1 < e.loc ∧ e.loc ≤ L2)) :
    offsetOf doc k L1 = offsetOf doc k L2 := by
  unfold offsetOf queryBefore
  congr 1
  apply List.filter_congr
  intro e he
  have hmem : e ∈ doc.elems := (List.mem_filter.mp he).1
  have hm : keyMatches k e = true := (List.mem_filter.mp he).2
  have hn := hno e hmem hm
  rw [Bool.eq_iff_iff]
  simp only [Bool.or_eq_true, Bool.true_and, beq_iff_eq, decide_eq_true_eq]
  omega

/-- C7: for the page counter, if `L1` precedes `L2` in document order,
no explicit page-counter event lies in between (after `L1`, up to and
including `L2`), and the collaborator's physical page numbers do not
decrease from `L1` to `L2`, then the top-level value of `at(L1)` is at
most that of `at(L2)`. -/
theorem page_monotone (doc : Doc) (L1 L2 : Nat) (s1 s2 : CounterState)
    (hL : L1 ≤ L2)
    (hpage : doc.pageOf L1 ≤ doc.pageOf L2)
    (hnoupd : ∀ e ∈ doc.elems, keyMatches CounterKey.page e = true →
      ¬(L1 < e.loc ∧ e.loc ≤ L2))
    (h1 : Counter.atLoc CounterKey.page doc L1 = Except.ok s1)
    (h2 : Counter.atLoc CounterKey.page doc L2 = Except.ok s2) :
    s1.first ≤ s2.first := by
  unfold Counter.atLoc at h1 h2
  cases hs : sequence_impl CounterKey.page doc with
  | error sp =>
    rw [hs] at h1
    exact Except.noConfusion h1
  | ok stops =>
    rw [hs] at h1 h2
    have hoff := offsetOf_eq_of_no_between doc CounterKey.page L1 L2 hL hnoupd
    simp only [isPage, decide_True, if_true] at h1 h2
    have e1 := Except.ok.inj h1
    have e2 := Except.ok.inj h2
    rw [← e1, ← e2, hoff]
    apply first_step_one_mono
    unfold satSub
    exact Nat.sub_le_sub_right hpage _

/-- Witness for C7 on the empty page-counter document `docP`, locations
0 (page 1) and 1 (page 2): `at` yields `[1]` then `[2]`. -/
theorem page_monotone_witness :
    (CounterState.mk [1]).first ≤ (CounterState.mk [2]).first :=
  page_monotone docP 0 1 (CounterState.mk [1]) (CounterState.mk [2])
    (by decide) (by decide)
    (by intro e he _; simp [docP] at he) rfl rfl

/-! ### Claim C2 -/

/-- C2 counterexample: the claim's "strictly before" offset disagrees
with the source's `before(location, true)` query.  On `docW`, querying
`at` exactly at the update event's own location (0) returns the state
after that event (`[5]`, inclusive count 1), whereas the strictly-before
reading of the spec would return the seed state (`[0]`, count 0). -/
theorem at_strict_counterexample :
    Counter.atLoc keyC docW 0 ≠ atStrictSpec keyC docW 0 := by
  intro h
  have h1 : Counter.atLoc keyC docW 0 = Except.ok (CounterState.mk [5]) := rfl
  have h2 : atStrictSpec keyC docW 0 = Except.ok (CounterState.mk [0]) := rfl
  rw [h1, h2] at h
  exact absurd (Except.ok.inj h) (by decide)

/-- C2 (amended): `at(L)` looks up `stops[offset]` where `offset` is the
number of Sequence-selected events at or before `L` (the before-query is
inclusive of an event located exactly at `L`); if this is the page
counter, the returned state is the stored stop's state stepped at level
1 by the saturating difference between the physical page of `L` and the
stop's recorded page.  The embedding is pure, so the cached Sequence is
never mutated by `at`. -/
theorem at_inclusive_spec (k : CounterKey) (doc : Doc) (L : Nat)
    (stops : List (CounterState × Nat))
    (hok : sequence_impl k doc = Except.ok stops) :
    Counter.atLoc k doc L = Except.ok (
      let offset := ((doc.elems.filter (keyMatches k)).filter
        (fun e => decide (e.loc ≤ L))).length
      let stop := stops.getD offset (CounterState.mk [], 1)
      if isPage k then stop.1.step 1 (satSub (doc.pageOf L) stop.2) else stop.1) := by
  have hfilter : queryBefore doc k L true =
      (doc.elems.filter (keyMatches k)).filter (fun e => decide (e.loc ≤ L)) := by
    unfold queryBefore
    apply List.filter_congr
    intro e _
    rw [Bool.eq_iff_iff]
    simp only [Bool.or_eq_true, Bool.true_and, beq_iff_eq, decide_eq_true_eq]
    omega
  unfold Counter.atLoc
  rw [hok]
  unfold offsetOf
  rw [hfilter]
  by_cases hp : isPage k <;> simp [hp]

/-- Witness for the amended C2 on `docW` at location 0. -/
theorem at_inclusive_spec_witness :
    Counter.atLoc keyC docW 0 = Except.ok (
      let offset := ((docW.elems.filter (keyMatches keyC)).filter
        (fun e => decide (e.loc ≤ 0))).length
      let stop := stopsW.getD offset (CounterState.mk [], 1)
      if isPage keyC then stop.1.step 1 (satSub (docW.pageOf 0) stop.2) else stop.1) :=
  at_inclusive_spec keyC docW 0 stopsW rfl
